import Mathlib

/-
Verification of the BH3 Elysian-Realm AstrBot plugin (main.py).

The development shallowly embeds the plugin's pure logic:
* AliasManager.get           -> aliasGet
* AutoUpdater._perform_update -> perform_update
* AutoUpdater._check_and_update -> run_check_cycle
* AutoUpdater._load_config / set_interval -> load_config / set_interval
* BH3ElysianRealmPlugin._find_strategy_image -> find_strategy_image
* BH3ElysianRealmPlugin._check_admin -> check_admin
* BH3ElysianRealmPlugin.check_update -> check_update_messages

Effects (network fetch, subprocess exit code, filesystem contents, clock)
are passed in as explicit parameters; persisted JSON files are explicit
state values threaded through the functions.
-/

set_option autoImplicit false

namespace ElysianRealm

/-! ## Python string primitives used by the plugin -/

/-- Python str.lower, restricted to ASCII case folding (the concrete
inputs used in this development are ASCII). -/
def strLower (s : String) : String := ⟨s.data.map Char.toLower⟩

/-- Python str.strip: remove leading and trailing whitespace. -/
def pyStrip (s : String) : String :=
  ⟨((s.data.dropWhile Char.isWhitespace).reverse.dropWhile Char.isWhitespace).reverse⟩

/-- Occurrence of `needle` as a contiguous substring of `hay`
(Python's `needle in hay` on strings), on character lists. -/
def strIn (needle : List Char) : List Char → Bool
  | [] => needle.isEmpty
  | c :: t => needle.isPrefixOf (c :: t) || strIn needle t

/-- Python `needle in hay` for strings. -/
def pyIn (needle hay : String) : Bool := strIn needle.data hay.data

/-! ## AliasManager (main.py lines 16-48) -/

/-- A value of the alias YAML mapping: the code branches on
`isinstance(aliases, list)` and `isinstance(aliases, str)`; anything
else falls through without matching. -/
inductive AliasVal where
  | vlist (l : List String)
  | vstr (s : String)
  | vother
deriving DecidableEq

/-- The alias table: insertion-ordered key/value pairs of the YAML
mapping (Python dict iteration order is insertion order). -/
abbrev AliasTable := List (String × AliasVal)

/-- Condition of the inner loop of AliasManager.get for one table entry:
some alternate name matches `n` exactly (after lowering) or contains `n`
as a substring (`alias.lower() == name or name in alias.lower()`). -/
def aliasHit (n : String) : AliasVal → Bool
  | .vlist l => l.any fun a => strLower a == n || pyIn n (strLower a)
  | .vstr s => strLower s == n || pyIn n (strLower s)
  | .vother => false

/-- The `for key, aliases in self.alias_data.items()` loop of
AliasManager.get: first entry whose alias value matches wins. -/
def aliasLoop (n : String) : AliasTable → Option String
  | [] => none
  | (k, v) :: rest => if aliasHit n v then some k else aliasLoop n rest

/-- AliasManager.get: strip and lower the query, return it if it is
literally a key, otherwise scan the table rows. -/
def aliasGet (t : AliasTable) (name : String) : Option String :=
  let n := strLower (pyStrip name)
  if t.any (fun kv => kv.1 == n) then some n else aliasLoop n t

/-- Exact-match phase of the spec's description of alias resolution:
some alternate name of the entry equals the query after lowering. -/
def aliasExact (n : String) : AliasVal → Bool
  | .vlist l => l.any fun a => strLower a == n
  | .vstr s => strLower s == n
  | .vother => false

/-- Substring phase of the spec's description of alias resolution, in
either direction: an alternate name contains the query, or the query
contains the alternate name. -/
def aliasSub2 (n : String) : AliasVal → Bool
  | .vlist l => l.any fun a => pyIn n (strLower a) || pyIn (strLower a) n
  | .vstr s => pyIn n (strLower s) || pyIn (strLower s) n
  | .vother => false

/-- Alias resolution as the spec words it (claim C2): three sequential
phases, first match wins — (1) case-insensitive exact match against the
canonical keys, (2) case-insensitive exact match against alternate
names, (3) substring match in either direction. -/
def aliasGetSpec (t : AliasTable) (name : String) : Option String :=
  let n := strLower (pyStrip name)
  match t.find? (fun kv => strLower kv.1 == n) with
  | some kv => some kv.1
  | none =>
    match t.find? (fun kv => aliasExact n kv.2) with
    | some kv => some kv.1
    | none => (t.find? (fun kv => aliasSub2 n kv.2)).map fun kv => kv.1

/-- The behaviour aliasGet actually has, phrased non-recursively: the
lowered trimmed query is returned when it literally equals a key,
otherwise the first table row (in insertion order) whose alias value
gives an exact-or-contains hit wins. -/
def aliasResolveAmended (t : AliasTable) (name : String) : Option String :=
  let n := strLower (pyStrip name)
  if t.any (fun kv => kv.1 == n) then some n
  else (t.find? (fun kv => aliasHit n kv.2)).map fun kv => kv.1

/-- An alias value that carries at least one alternate name the inner
loop of AliasManager.get iterates over. -/
def hasAliasEntry : AliasVal → Bool
  | .vlist l => !l.isEmpty
  | .vstr _ => true
  | .vother => false

/-- First canonical key, in table order, that has an alternate-name
entry. -/
def firstAliasKey (t : AliasTable) : Option String :=
  (t.find? (fun kv => hasAliasEntry kv.2)).map fun kv => kv.1

/-! ## Admin permission check (main.py lines 633-652) -/

/-- The part of an inbound message event that _check_admin looks at:
`get_platform_name` may raise (the surrounding try turns that into a
False return), and the `is_admin` attribute may be absent
(`hasattr(event, 'is_admin')`). -/
structure Event where
  sender_id : String
  platform_name : Except String String
  is_admin : Option Bool

/-- BH3ElysianRealmPlugin._check_admin. -/
def check_admin (e : Event) : Bool :=
  match e.platform_name with
  | .error _ => false
  | .ok _ =>
    match e.is_admin with
    | some b => b
    | none => true

/-! ## Strategy image lookup (main.py lines 327-341) -/

/-- The extension list of _find_strategy_image, in source order. -/
def extensions : List String := [".jpg", ".jpeg", ".png", ".gif", ".webp"]

/-- The probed path `self.resource_path / f"{char_name}{ext}"`. -/
def strategy_image_path (resource_path char_name ext : String) : String :=
  resource_path ++ "/" ++ char_name ++ ext

/-- The `for ext in extensions` loop of _find_strategy_image; `fs` is
the filesystem's answer to `Path.exists`. -/
def find_image_loop (fs : String → Bool) (rp cn : String) : List String → Option String
  | [] => none
  | ext :: rest =>
    if fs (strategy_image_path rp cn ext) then some (strategy_image_path rp cn ext)
    else find_image_loop fs rp cn rest

/-- BH3ElysianRealmPlugin._find_strategy_image. -/
def find_strategy_image (fs : String → Bool) (rp cn : String) : Option String :=
  find_image_loop fs rp cn extensions

/-! ## Update execution (main.py lines 190-241) -/

/-- The image-extension tuple of _perform_update (line 228). -/
def image_extensions : List String := [".jpg", ".jpeg", ".png", ".gif", ".webp"]

/-- pathlib's Path.suffix of a file name: the substring from the last
dot, empty when the dot is absent, leading or trailing. -/
def pathSuffix (name : String) : String :=
  match (name.data.reverse.findIdx? fun x => x == '.') with
  | none => ""
  | some j =>
    let i := name.data.length - 1 - j
    if 0 < i && i < name.data.length - 1 then ⟨name.data.drop i⟩ else ""

/-- One directory entry of the cloned repository, as seen by
`source_dir.iterdir()`. -/
structure FileEntry where
  name : String
  is_file : Bool
deriving DecidableEq

/-- The environment's response to one _perform_update run: whether some
step raised (swallowed by the broad except), the clone subprocess's exit
code, whether the cloned directory exists, and its entries. -/
structure CloneEnv where
  raises : Bool
  returncode : Int
  source_exists : Bool
  files : List FileEntry
deriving DecidableEq

/-- Result of _perform_update: the returned bool, the value of
`copied_count`, and the names of the files copied into the live asset
directory, in copy order. -/
structure UpdateResult where
  success : Bool
  copied_count : Nat
  copied : List String
deriving DecidableEq

/-- Loop condition for copying one entry:
`file.is_file() and file.suffix.lower() in image_extensions`. -/
def is_image_file (f : FileEntry) : Bool :=
  f.is_file && image_extensions.contains (strLower (pathSuffix f.name))

/-- The `for file in source_dir.iterdir()` copy loop, threading
`copied_count` and the list of copied names. -/
def copy_loop : List FileEntry → Nat × List String → Nat × List String
  | [], st => st
  | f :: rest, (n, acc) =>
    if is_image_file f then copy_loop rest (n + 1, acc ++ [f.name])
    else copy_loop rest (n, acc)

/-- The clone target (main.py line 196). -/
def repo_url : String := "https://github.com/MskTmi/ElysianRealm-Data.git"

/-- The argument vector built for the clone subprocess (lines 202-207). -/
def clone_cmd (url dest : String) : List String :=
  ["git", "clone", "--depth", "1", url, dest]

/-- AutoUpdater._perform_update. -/
def perform_update (env : CloneEnv) : UpdateResult :=
  if env.raises then ⟨false, 0, []⟩
  else if env.returncode != 0 then ⟨false, 0, []⟩
  else if !env.source_exists then ⟨false, 0, []⟩
  else
    let r := copy_loop env.files (0, [])
    ⟨true, r.1, r.2⟩

/-! ## Persisted sync state and configuration (main.py lines 75-100,
167-188, 263-266) -/

/-- Contents of version.json once parsed: `commit_hash` read back via
`data.get('commit_hash')` may be absent. -/
structure VFile where
  commit_hash : Option String
  update_time : String
deriving DecidableEq

/-- AutoUpdater._get_local_commit over the version file (none models a
missing or unreadable file). -/
def get_local_commit (vf : Option VFile) : Option String :=
  vf.bind fun d => d.commit_hash

/-- AutoUpdater._save_local_commit: the record written to version.json. -/
def save_local_commit (h now : String) : VFile := ⟨some h, now⟩

/-- Python `remote_commit != local_commit` negated, with `local_commit`
an optional string: a string never equals None. -/
def localEq (l : Option String) (r : String) : Bool :=
  match l with
  | some s => s == r
  | none => false

/-- The three in-memory configuration fields of AutoUpdater. -/
structure AUConfig where
  check_interval : Int
  auto_update : Bool
  notify_admin : Bool
deriving DecidableEq

/-- Constructor defaults (main.py lines 58-60). -/
def defaultConfig : AUConfig := ⟨3600, true, true⟩

/-- Contents of auto_update.json once parsed; each key may be absent
(`config.get(key, default)`). -/
structure ConfigFile where
  check_interval : Option Int
  auto_update : Option Bool
  notify_admin : Option Bool
deriving DecidableEq

/-- AutoUpdater._load_config: a missing or unparsable file (none) leaves
the fields at their previous values; otherwise every field is adopted
from the file with the documented default. -/
def load_config (c : AUConfig) (file : Option ConfigFile) : AUConfig :=
  match file with
  | none => c
  | some f => ⟨f.check_interval.getD 3600, f.auto_update.getD true, f.notify_admin.getD true⟩

/-- AutoUpdater.set_interval: `max(300, seconds)`. -/
def set_interval (c : AUConfig) (seconds : Int) : AUConfig :=
  { c with check_interval := max 300 seconds }

/-! ## The automatic check cycle (main.py lines 113-147) -/

/-- Persisted state the updater can touch during a cycle. -/
structure UpdaterState where
  version_file : Option VFile
  config : AUConfig
deriving DecidableEq

/-- Observable outcome of one cycle: whether _perform_update was entered
(hence a clone invoked), whether the cycle reported success, and whether
it reported an update failure. -/
structure CycleOut where
  clone_invoked : Bool
  updated : Bool
  failure_reported : Bool
deriving DecidableEq

/-- AutoUpdater._check_and_update: `remote` is _get_remote_commit's
return value (none on network error or non-success status; the sha can
in principle be the empty string, which the falsiness test treats like a
failed fetch), `env` is the environment _perform_update would see, and
`now` the clock reading used for update_time. -/
def run_check_cycle (st : UpdaterState) (remote : Option String) (env : CloneEnv)
    (now : String) : UpdaterState × CycleOut :=
  match remote with
  | none => (st, ⟨false, false, false⟩)
  | some r =>
    if r == "" then (st, ⟨false, false, false⟩)
    else if localEq (get_local_commit st.version_file) r then (st, ⟨false, false, false⟩)
    else if (perform_update env).success then
      ({ st with version_file := some (save_local_commit r now) }, ⟨true, true, false⟩)
    else (st, ⟨true, false, true⟩)

/-! ## Manual check command (main.py lines 528-560) -/

/-- Reply segments the manual check handler can yield. -/
inductive CheckMsg where
  | searching
  | fetchFailed
  | newVersion (remote : String) (loc : Option String)
  | upToDate (loc : Option String)
deriving DecidableEq

/-- BH3ElysianRealmPlugin.check_update: the sequence of replies yielded
for a given version file and fetch outcome (the handler writes no
state). -/
def check_update_messages (vf : Option VFile) (remote : Option String) : List CheckMsg :=
  CheckMsg.searching ::
    match remote with
    | none => [CheckMsg.fetchFailed]
    | some r =>
      if r == "" then [CheckMsg.fetchFailed]
      else if localEq (get_local_commit vf) r then [CheckMsg.upToDate (get_local_commit vf)]
      else [CheckMsg.newVersion r (get_local_commit vf)]

/-! ## Counter Store derived metrics -/

/-- Rounding to two decimal places over the rationals. -/
def round2 (x : ℚ) : ℚ := (round (x * 100) : ℚ) / 100

/-- Modelled from the spec: the Counter Store component, including its
two derived metrics over `vol`, is code of this repository that is not
under src (only main.py is present). Spec section 4.1 describes them as
two linear scalings, one capped and one uncapped, each rounded to two
decimal places, and section 8 fixes the formulas; reals are modelled as
rationals. This is the capped one: vol scaled by 2e-6, capped at 10000,
rounded to two decimals. -/
def capped_metric (vol : ℚ) : ℚ :=
  let v := vol * (2 / 1000000)
  round2 (if v > 10000 then 10000 else v)

/-- Modelled from the spec: the uncapped derived metric of the missing
Counter Store component — vol scaled by 0.005, rounded to two
decimals. -/
def uncapped_metric (vol : ℚ) : ℚ := round2 (vol * (5 / 1000))

/-- An alias value some alternate name of which contains `n` as a
substring (the one matching direction the source implements besides
exact equality). -/
def aliasContains (n : String) : AliasVal → Bool
  | .vlist l => l.any fun a => pyIn n (strLower a)
  | .vstr s => pyIn n (strLower s)
  | .vother => false

/-! ## Helper lemmas -/

theorem aliasLoop_eq_find (n : String) (t : AliasTable) :
    aliasLoop n t = (t.find? fun kv => aliasHit n kv.2).map fun kv => kv.1 := by
  induction t with
  | nil => rfl
  | cons kv rest ih =>
    obtain ⟨k, v⟩ := kv
    by_cases h : aliasHit n v
    · simp [aliasLoop, h, List.find?]
    · simp only [Bool.not_eq_true] at h
      simp [aliasLoop, h, List.find?, ih]

theorem pyIn_empty (s : String) : pyIn "" s = true := by
  show strIn [] s.data = true
  cases s.data with
  | nil => rfl
  | cons c t => simp [strIn, List.isPrefixOf]

theorem aliasHit_empty (v : AliasVal) : aliasHit "" v = hasAliasEntry v := by
  cases v with
  | vlist l => cases l <;> simp [aliasHit, hasAliasEntry, pyIn_empty]
  | vstr s => simp [aliasHit, hasAliasEntry, pyIn_empty]
  | vother => rfl

theorem aliasHit_false_of {n : String} {v : AliasVal} (h1 : aliasExact n v = false)
    (h2 : aliasSub2 n v = false) : aliasHit n v = false := by
  cases v with
  | vlist l =>
    simp only [aliasExact, aliasSub2, List.any_eq_false] at h1 h2
    simp only [aliasHit, List.any_eq_false]
    intro a ha
    have e1 := h1 a ha
    have e2 := h2 a ha
    simp only [Bool.or_eq_true, not_or] at e2 ⊢
    exact ⟨e1, e2.1⟩
  | vstr s =>
    simp only [aliasExact, aliasSub2, Bool.or_eq_false_iff] at h1 h2
    simp [aliasHit, h1, h2.1]
  | vother => rfl

theorem aliasHit_of_contains {n : String} {v : AliasVal} (h : aliasContains n v = true) :
    aliasHit n v = true := by
  cases v with
  | vlist l =>
    simp only [aliasContains, List.any_eq_true] at h
    obtain ⟨a, ha, hp⟩ := h
    simp only [aliasHit, List.any_eq_true]
    exact ⟨a, ha, by simp [hp]⟩
  | vstr s =>
    simp only [aliasContains] at h
    simp [aliasHit, h]
  | vother => simp [aliasContains] at h

theorem find?_congr_fun {α : Type} (l : List α) (p q : α → Bool) (h : ∀ a, p a = q a) :
    l.find? p = l.find? q := by
  have : p = q := funext h
  rw [this]

theorem copy_loop_spec (files : List FileEntry) (n : Nat) (acc : List String) :
    copy_loop files (n, acc) =
      (n + (files.filter is_image_file).length,
       acc ++ (files.filter is_image_file).map fun f => f.name) := by
  induction files generalizing n acc with
  | nil => simp [copy_loop]
  | cons f rest ih =>
    by_cases h : is_image_file f
    · simp [copy_loop, h, ih, List.filter_cons]
      omega
    · simp only [Bool.not_eq_true] at h
      simp [copy_loop, h, ih, List.filter_cons]

theorem find_image_loop_eq_find (fs : String → Bool) (rp cn : String) (l : List String) :
    find_image_loop fs rp cn l =
      (l.find? fun e => fs (strategy_image_path rp cn e)).map (strategy_image_path rp cn) := by
  induction l with
  | nil => rfl
  | cons e rest ih =>
    by_cases h : fs (strategy_image_path rp cn e)
    · simp [find_image_loop, h, List.find?]
    · simp only [Bool.not_eq_true] at h
      simp [find_image_loop, h, List.find?, ih]

/-! ## Claim C2 -/

/-- C2 counterexample: AliasManager.get deviates from the spec's
three-phase description in three ways — (1) substring matching is
one-directional: for table {k: [abc]} the query zabcz (which contains
the alternate abc) does not resolve; (2) exact alias matches are not a
separate phase before substring matches: for {k1: [abc], k2: [b]} the
query b resolves to k1 by substring although k2 carries it as an exact
alternate; (3) key matching lowercases only the query: for {K: []} the
query K does not resolve. -/
theorem alias_resolution_spec_mismatch :
    (aliasGet [("k", AliasVal.vlist ["abc"])] "zabcz" = none ∧
      aliasGetSpec [("k", AliasVal.vlist ["abc"])] "zabcz" = some "k") ∧
    (aliasGet [("k1", AliasVal.vlist ["abc"]), ("k2", AliasVal.vlist ["b"])] "b" = some "k1" ∧
      aliasGetSpec [("k1", AliasVal.vlist ["abc"]), ("k2", AliasVal.vlist ["b"])] "b" = some "k2") ∧
    (aliasGet [("K", AliasVal.vlist [])] "K" = none ∧
      aliasGetSpec [("K", AliasVal.vlist [])] "K" = some "K") := by
  decide

/-- C2 (amended): alias resolution lowercases and trims the query, then
(1) returns the query itself when it literally equals a canonical key
(so key matching is case-insensitive only in the query); otherwise (2)
scans the table rows in order and returns the first key one of whose
alternate names either equals the lowered query or contains it as a
substring — exact and substring matching happen in the same single
pass, and the direction query-contains-alternate is not checked; none
when nothing matches. -/
theorem aliasGet_eq_amended (t : AliasTable) (name : String) :
    aliasGet t name = aliasResolveAmended t name := by
  simp [aliasGet, aliasResolveAmended, aliasLoop_eq_find]

/-! ## Claim C3 -/

/-- C3 counterexample: the query Elysia equals the canonical key Elysia
up to case, yet resolves to none (only the query is lowercased); and
the query b is a substring of the registered alternate b of key k2, yet
resolves to k1 (the first key, in table order, with any matching
alternate), not to that alternate's canonical key. -/
theorem alias_key_and_substring_counterexample :
    (aliasGet [("Elysia", AliasVal.vlist [])] "Elysia" = none) ∧
    (aliasGet [("k1", AliasVal.vlist ["ab"]), ("k2", AliasVal.vlist ["b"])] "b" = some "k1" ∧
      pyIn (strLower (pyStrip "b")) (strLower "b") = true ∧
      (some "k1" : Option String) ≠ some "k2") := by
  decide

/-- C3 (amended): (1) a query whose trimmed lowercased form literally
equals a canonical key resolves to that key; (2) a name that is not a
key, not an alternate name, and not in a substring relation (either
direction) with any alternate resolves to none; (3) a query contained
in some registered alternate name resolves to a key — namely the first
key in table order with a matching alternate — provided the query is
not itself a key. -/
theorem alias_resolution_properties (t : AliasTable) (q : String) :
    ((∃ v, (strLower (pyStrip q), v) ∈ t) → aliasGet t q = some (strLower (pyStrip q))) ∧
    ((∀ kv ∈ t, kv.1 ≠ strLower (pyStrip q) ∧
        aliasExact (strLower (pyStrip q)) kv.2 = false ∧
        aliasSub2 (strLower (pyStrip q)) kv.2 = false) →
      aliasGet t q = none) ∧
    ((∀ kv ∈ t, kv.1 ≠ strLower (pyStrip q)) →
      (∃ kv ∈ t, aliasContains (strLower (pyStrip q)) kv.2 = true) →
      aliasGet t q =
        ((t.find? fun kv => aliasHit (strLower (pyStrip q)) kv.2).map fun kv => kv.1) ∧
      (aliasGet t q).isSome = true) := by
  refine ⟨?_, ?_, ?_⟩
  · rintro ⟨v, hv⟩
    have hany : (t.any fun kv => kv.1 == strLower (pyStrip q)) = true := by
      rw [List.any_eq_true]
      exact ⟨(strLower (pyStrip q), v), hv, by simp⟩
    simp [aliasGet, hany]
  · intro h
    have hany : (t.any fun kv => kv.1 == strLower (pyStrip q)) = false := by
      rw [List.any_eq_false]
      intro kv hkv
      simp [(h kv hkv).1]
    have hfind : (t.find? fun kv => aliasHit (strLower (pyStrip q)) kv.2) = none := by
      rw [List.find?_eq_none]
      intro kv hkv
      simp [aliasHit_false_of (h kv hkv).2.1 (h kv hkv).2.2]
    simp [aliasGet, hany, aliasLoop_eq_find, hfind]
  · intro hkeys hex
    have hany : (t.any fun kv => kv.1 == strLower (pyStrip q)) = false := by
      rw [List.any_eq_false]
      intro kv hkv
      simp [hkeys kv hkv]
    obtain ⟨kv, hkv, hc⟩ := hex
    have hsome : (t.find? fun kv => aliasHit (strLower (pyStrip q)) kv.2).isSome := by
      rw [List.find?_isSome]
      exact ⟨kv, hkv, aliasHit_of_contains hc⟩
    constructor
    · simp [aliasGet, hany, aliasLoop_eq_find]
    · simp [aliasGet, hany, aliasLoop_eq_find, hsome]

/-- C3 witness: instantiating part (3) at the table {k: [ab]} and the
query b, a substring of the alternate ab. -/
theorem alias_resolution_properties_witness :
    aliasGet [("k", AliasVal.vlist ["ab"])] "b"
        = (([("k", AliasVal.vlist ["ab"])].find?
            fun kv => aliasHit (strLower (pyStrip "b")) kv.2).map fun kv => kv.1) ∧
    (aliasGet [("k", AliasVal.vlist ["ab"])] "b").isSome = true :=
  (alias_resolution_properties [("k", AliasVal.vlist ["ab"])] "b").2.2 (by decide) (by decide)

/-! ## Claim C9 -/

/-- C9 counterexample: with the table whose rows are the key-with-no-
alias pair (empty-string key, empty list) followed by (k, [a]), the
whitespace query resolves to the empty-string key via the direct key
membership test, not to k, the first key with an alternate-name
entry. -/
theorem empty_query_key_shadowing :
    aliasGet [("", AliasVal.vlist []), ("k", AliasVal.vlist ["a"])] " " = some "" ∧
    firstAliasKey [("", AliasVal.vlist []), ("k", AliasVal.vlist ["a"])] = some "k" ∧
    (some "" : Option String) ≠ some "k" := by
  decide

/-- C9 (amended): for a query that trims to the empty string, provided
the empty string is not itself a canonical key, resolution returns the
first key in table iteration order that has an alternate-name entry (a
non-empty list value or a string value) — in particular not none when
such a key exists, since the empty query is a substring of every
alternate name. -/
theorem empty_query_resolution (t : AliasTable) (q : String) (hq : pyStrip q = "")
    (hk : ∀ kv ∈ t, kv.1 ≠ "") (ha : ∃ kv ∈ t, hasAliasEntry kv.2 = true) :
    aliasGet t q = firstAliasKey t ∧ (aliasGet t q).isSome = true := by
  have hn : strLower (pyStrip q) = "" := by rw [hq]; rfl
  have hany : (t.any fun kv => kv.1 == strLower (pyStrip q)) = false := by
    rw [List.any_eq_false]
    intro kv hkv
    simp [hn, hk kv hkv]
  have hfind : (t.find? fun kv => aliasHit (strLower (pyStrip q)) kv.2)
      = t.find? fun kv => hasAliasEntry kv.2 := by
    apply find?_congr_fun
    intro kv
    rw [hn, aliasHit_empty]
  have hsome : (t.find? fun kv => hasAliasEntry kv.2).isSome := by
    rw [List.find?_isSome]
    exact ha
  constructor
  · simp [aliasGet, hany, aliasLoop_eq_find, hfind, firstAliasKey]
  · simp [aliasGet, hany, aliasLoop_eq_find, hfind, hsome]

/-- C9 witness: a table with a non-list non-string first value and a
string-valued second entry; the two-space query resolves to the second
key. -/
theorem empty_query_resolution_witness :
    aliasGet [("k0", AliasVal.vother), ("k", AliasVal.vstr "x")] "  "
        = firstAliasKey [("k0", AliasVal.vother), ("k", AliasVal.vstr "x")] ∧
    (aliasGet [("k0", AliasVal.vother), ("k", AliasVal.vstr "x")] "  ").isSome = true :=
  empty_query_resolution _ "  " (by decide) (by decide) (by decide)

/-! ## Claim C1 -/

/-- C1: in one automatic check cycle with a successfully fetched
non-empty remote reference — if it equals the persisted commit_hash,
no clone is invoked and the persisted state (version file and
configuration) is unchanged; if they differ and the clone-and-copy
succeeds, the persisted record becomes the fetched reference with the
current time; if the clone-and-copy fails, the persisted state is
exactly as before and the failure is reported. -/
theorem check_cycle_sync_state (st : UpdaterState) (r : String) (env : CloneEnv)
    (now : String) (hr : r ≠ "") :
    (localEq (get_local_commit st.version_file) r = true →
      run_check_cycle st (some r) env now = (st, ⟨false, false, false⟩)) ∧
    (localEq (get_local_commit st.version_file) r = false →
      (perform_update env).success = true →
      run_check_cycle st (some r) env now =
        ({ st with version_file := some ⟨some r, now⟩ }, ⟨true, true, false⟩)) ∧
    (localEq (get_local_commit st.version_file) r = false →
      (perform_update env).success = false →
      run_check_cycle st (some r) env now = (st, ⟨true, false, true⟩)) := by
  have hbeq : (r == "") = false := by
    simp [hr]
  refine ⟨?_, ?_, ?_⟩
  · intro h
    simp [run_check_cycle, hbeq, h]
  · intro h hs
    simp [run_check_cycle, hbeq, h, hs, save_local_commit]
  · intro h hs
    simp [run_check_cycle, hbeq, h, hs]

/-- C1 witness: local hash aaa, remote hash bbb, clean clone
environment — the version file is rewritten to bbb with the new
timestamp. -/
theorem check_cycle_sync_state_witness :
    run_check_cycle ⟨some ⟨some "aaa", "t0"⟩, defaultConfig⟩ (some "bbb")
        ⟨false, 0, true, []⟩ "t1"
      = (⟨some ⟨some "bbb", "t1"⟩, defaultConfig⟩, ⟨true, true, false⟩) :=
  (check_cycle_sync_state ⟨some ⟨some "aaa", "t0"⟩, defaultConfig⟩ "bbb"
      ⟨false, 0, true, []⟩ "t1" (by decide)).2.1 (by decide) (by decide)

/-! ## Claim C4 -/

/-- C4: when fetching the remote reference fails (none from a network
error or non-success status, or a falsy empty sha), the cycle leaves
the whole persisted state — version file and configuration — exactly
as it was, invokes no clone and reports no update; and the manual
check command replies with the fetch-failure message instead of
proceeding to a comparison result. -/
theorem fetch_failure_aborts (st : UpdaterState) (env : CloneEnv) (now : String)
    (remote : Option String) (h : remote = none ∨ remote = some "") :
    run_check_cycle st remote env now = (st, ⟨false, false, false⟩) ∧
    check_update_messages st.version_file remote
      = [CheckMsg.searching, CheckMsg.fetchFailed] := by
  rcases h with h | h <;> subst h <;>
    simp [run_check_cycle, check_update_messages]

/-- C4 witness: a failed fetch against a populated state changes
nothing and the manual check reports the failure. -/
theorem fetch_failure_aborts_witness :
    run_check_cycle ⟨some ⟨some "aaa", "t0"⟩, defaultConfig⟩ none
        ⟨false, 0, true, []⟩ "t1"
      = (⟨some ⟨some "aaa", "t0"⟩, defaultConfig⟩, ⟨false, false, false⟩) ∧
    check_update_messages (some ⟨some "aaa", "t0"⟩) none
      = [CheckMsg.searching, CheckMsg.fetchFailed] :=
  fetch_failure_aborts ⟨some ⟨some "aaa", "t0"⟩, defaultConfig⟩
    ⟨false, 0, true, []⟩ "t1" none (Or.inl rfl)

/-! ## Claim C5 -/

/-- C5 counterexample: loading a persisted configuration file carrying
check_interval 60 makes the updater run with 60 seconds — below the
300-second floor the claim asserts for every value of
check_interval. -/
theorem load_config_ignores_floor :
    (load_config defaultConfig (some ⟨some 60, none, none⟩)).check_interval = 60 ∧
    ¬(300 ≤ (load_config defaultConfig (some ⟨some 60, none, none⟩)).check_interval) := by
  decide

/-- C5 (amended): setting the interval at runtime stores max(300, s),
so every runtime-set value is at least 300; but the floor is not
applied on load — _load_config adopts check_interval from the
configuration file verbatim (defaulting to 3600 when the key is
absent, and keeping the previous value when the file is missing or
unparsable), so a file value below 300 is run with as-is. -/
theorem set_interval_floor_load_verbatim :
    (∀ c s, (set_interval c s).check_interval = max 300 s ∧
      300 ≤ (set_interval c s).check_interval) ∧
    (∀ c f, (load_config c (some f)).check_interval = f.check_interval.getD 3600) ∧
    (∀ c, load_config c none = c) :=
  ⟨fun _ s => ⟨rfl, le_max_left 300 s⟩, fun _ _ => rfl, fun _ => rfl⟩

/-! ## Claim C6 -/

/-- C6: the update builds a depth-1 clone command, treats a non-zero
exit code as failure (exit code zero being the only way past the clone
step), and on a clean run copies exactly the regular files whose
suffix, lowercased, is one of .jpg/.jpeg/.png/.gif/.webp, in directory
order, reporting their number as the copied count. -/
theorem perform_update_behaviour (env : CloneEnv) :
    (env.returncode ≠ 0 → (perform_update env).success = false) ∧
    (env.raises = false → env.returncode = 0 → env.source_exists = true →
      perform_update env =
        ⟨true, (env.files.filter is_image_file).length,
          (env.files.filter is_image_file).map fun f => f.name⟩) ∧
    (∀ url dest, clone_cmd url dest = ["git", "clone", "--depth", "1", url, dest]) := by
  refine ⟨?_, ?_, fun url dest => rfl⟩
  · intro h
    cases hb : env.raises <;> simp [perform_update, h, hb]
  · intro h1 h2 h3
    simp [perform_update, h1, h2, h3, copy_loop_spec]

/-- C6 witness: a clean clone of a directory holding one jpg, one text
file and one upper-case PNG copies the two images and counts 2. -/
theorem perform_update_behaviour_witness :
    perform_update ⟨false, 0, true, [⟨"a.jpg", true⟩, ⟨"b.txt", true⟩, ⟨"c.PNG", true⟩]⟩
      = ⟨true, 2, ["a.jpg", "c.PNG"]⟩ :=
  (perform_update_behaviour
    ⟨false, 0, true, [⟨"a.jpg", true⟩, ⟨"b.txt", true⟩, ⟨"c.PNG", true⟩]⟩).2.1 rfl rfl rfl

/-! ## Claim C7 -/

/-- C7 counterexample: the permission check is not a stub returning
true for every event — an event exposing is_admin as False is denied,
as is an event whose platform-name lookup raises. -/
theorem check_admin_not_always_true :
    check_admin ⟨"12345", Except.ok "aiocqhttp", some false⟩ = false ∧
    check_admin ⟨"12345", Except.error "boom", none⟩ = false := by
  decide

/-- C7 (amended): the admin check defaults to granting access — it
returns true exactly when the event exposes no is_admin attribute and
the platform-name lookup succeeds; when the event exposes is_admin,
that value is returned verbatim; when the platform-name lookup raises,
the check returns false. -/
theorem check_admin_cases (sid p err : String) (ia : Option Bool) :
    check_admin ⟨sid, Except.ok p, none⟩ = true ∧
    (∀ b, check_admin ⟨sid, Except.ok p, some b⟩ = b) ∧
    check_admin ⟨sid, Except.error err, ia⟩ = false :=
  ⟨rfl, fun _ => rfl, rfl⟩

/-! ## Claim C8 -/

/-- C8: for every non-negative vol, the capped derived metric is
min(vol * 2e-6, 10000) rounded to two decimals and the uncapped one is
vol * 0.005 rounded to two decimals (Counter Store code absent from
src; metrics modelled from the spec over the rationals). -/
theorem derived_metrics_formulas (vol : ℚ) (h : 0 ≤ vol) :
    capped_metric vol = round2 (min (vol * (2 / 1000000)) 10000) ∧
    uncapped_metric vol = round2 (vol * (5 / 1000)) := by
  refine ⟨?_, rfl⟩
  have hz : capped_metric vol
      = round2 (if vol * (2 / 1000000) > 10000 then 10000 else vol * (2 / 1000000)) := rfl
  rw [hz]
  rcases le_or_lt (vol * (2 / 1000000)) 10000 with hle | hlt
  · rw [if_neg (not_lt.2 hle), min_eq_left hle]
  · rw [if_pos hlt, min_eq_right hlt.le]

/-- C8 witness: the spec's scenario value vol = 52.5 gives capped
metric 0.00 and uncapped metric 0.26. -/
theorem derived_metrics_formulas_witness :
    (0 ≤ (105 / 2 : ℚ) ∧
      (capped_metric (105 / 2) = round2 (min ((105 / 2) * (2 / 1000000)) 10000) ∧
        uncapped_metric (105 / 2) = round2 ((105 / 2) * (5 / 1000)))) ∧
    capped_metric (105 / 2) = 0 ∧ uncapped_metric (105 / 2) = 26 / 100 := by
  refine ⟨⟨by norm_num, derived_metrics_formulas (105 / 2) (by norm_num)⟩, ?_, ?_⟩
  · norm_num [capped_metric, round2]
  · norm_num [uncapped_metric, round2, round_eq]

/-! ## Claim C10 -/

/-- C10: the strategy-image lookup probes the resource directory with
the extensions in the fixed order .jpg, .jpeg, .png, .gif, .webp and
returns the path for the first extension whose file exists (none when
find? finds no existing candidate). -/
theorem find_strategy_image_first_ext (fs : String → Bool) (rp cn : String) :
    find_strategy_image fs rp cn =
      (extensions.find? fun e => fs (strategy_image_path rp cn e)).map
        (strategy_image_path rp cn) ∧
    extensions = [".jpg", ".jpeg", ".png", ".gif", ".webp"] :=
  ⟨find_image_loop_eq_find fs rp cn extensions, rfl⟩

end ElysianRealm
